import Mathlib

set_option autoImplicit false

/-
Shallow embedding of the tikv repository parts that the specification claims
talk about: the engine error conversion (components/engine/src/errors.rs), the
backup streaming service (components/backup/src/service.rs), and the
transactional scheduler, MVCC commit and SST import paths.  The scheduler,
MVCC executor and SST importer themselves are not present under src (only
their tests are), so those definitions are modelled from the spec, as marked
in their doc comments.  Bytes are Nat values below 256, byte strings are
List Nat, and machine integers are Nat with explicit wrap where it matters.
-/

/-! ## Engine error conversion (components/engine/src/errors.rs) -/

/-- Upper case hex digit of a value below 16. -/
def hexDigitUpper (n : Nat) : Char :=
  if n < 10 then Char.ofNat (48 + n) else Char.ofNat (55 + n)

/-- Upper case hex rendering of one byte, two digits. -/
def hexByteUpper (b : Nat) : String :=
  String.mk [hexDigitUpper (b % 256 / 16), hexDigitUpper (b % 16)]

/-- Upper case hex encoding of a byte string, as the hex crate encode_upper
used by the NotInRange display clause in errors.rs. -/
def hexEncodeUpper (bs : List Nat) : String :=
  String.join (bs.map hexByteUpper)

/-- Engine error enum of components/engine/src/errors.rs.  Variants guarded by
the disabled prost-codec feature are omitted.  Payloads that only contribute
their own rendering to the display string (the RocksDb message, the protobuf
cause, the i/o cause, the boxed cause) are carried as that rendered text. -/
inductive EngineError : Type
  | rocksDb (msg : String)
  | notInRange (key : List Nat) (regionId : Nat) (startKey : List Nat) (endKey : List Nat)
  | protobuf (msg : String)
  | ioError (msg : String)
  | other (msg : String)
deriving DecidableEq

/-- Display rendering of an engine error, following the display clauses of the
quick_error block in errors.rs lines 5-54. -/
def engineErrorDisplay : EngineError → String
  | .rocksDb msg => "RocksDb " ++ msg
  | .notInRange key regionId startKey endKey =>
      "Key " ++ hexEncodeUpper key ++ " is out of [region " ++ toString regionId
        ++ "] [" ++ hexEncodeUpper startKey ++ ", " ++ hexEncodeUpper endKey ++ ")"
  | .protobuf msg => "Protobuf " ++ msg
  | .ioError msg => "Io " ++ msg
  | .other msg => msg

/-- The key_not_in_region submessage of the errorpb protocol error. -/
structure KeyNotInRegion where
  key : List Nat
  regionId : Nat
  startKey : List Nat
  endKey : List Nat
deriving DecidableEq

/-- The errorpb protocol error: a message plus the optional key_not_in_region
detail (the only field the engine conversion ever fills). -/
structure ErrorPb where
  message : String
  keyNotInRegion : Option KeyNotInRegion
deriving DecidableEq

/-- Conversion of an engine Error into the errorpb protocol error
(errors.rs lines 78-92): start from the default message, set message to the
display rendering, and for NotInRange also fill key_not_in_region with the
key, region id, start key and end key of the error. -/
def engineErrorToErrorPb (e : EngineError) : ErrorPb :=
  let base : ErrorPb := { message := engineErrorDisplay e, keyNotInRegion := none }
  match e with
  | .notInRange key regionId startKey endKey =>
      { base with keyNotInRegion := some ⟨key, regionId, startKey, endKey⟩ }
  | _ => base

/-! ## Backup streaming service (components/backup/src/service.rs) -/

/-- State of the futures mpsc unbounded channel that Service.backup creates
per request (service.rs line 44): the queued responses and whether the
receiving side is still alive. -/
structure UnboundedChannel (α : Type) where
  buffer : List α
  receiverAlive : Bool
deriving DecidableEq

/-- unbounded_send on the completion channel: it fails exactly when the
receiving side is gone, and otherwise queues the response regardless of how
many responses are already queued (no capacity bound, no blocking). -/
def unboundedSend {α : Type} (ch : UnboundedChannel α) (x : α) : Option (UnboundedChannel α) :=
  if ch.receiverAlive then some { ch with buffer := ch.buffer ++ [x] } else none

/-- Forwarding loop of Service.backup (service.rs lines 64-88): send_all
drains the completion channel into the grpc sink.  The first argument models
the client side of the sink: some c means the client drops the stream after
accepting c responses, none means the stream stays open.  The result is how
many responses were delivered and whether the cancel flag was stored, which
the map_err arm on the send future (lines 81-87) does exactly when a send
fails; responses after a failed send are discarded. -/
def backupDeliver {α : Type} : Option Nat → List α → Nat × Bool
  | _, [] => (0, false)
  | none, _ :: rest => ((backupDeliver none rest).1 + 1, (backupDeliver none rest).2)
  | some 0, _ :: _ => (0, true)
  | some (c + 1), _ :: rest => ((backupDeliver (some c) rest).1 + 1, (backupDeliver (some c) rest).2)

/-! ## Scheduler routing outcomes (modelled from the spec) -/

/-- Region level routing errors of the staleness class (spec section 7). -/
inductive RegionError : Type
  | notLeader
  | regionNotFound
  | epochNotMatch
  | staleCommand
deriving DecidableEq

/-- Terminal outcome of a command (spec section 4.5): exactly one of success,
retryable error, fatal error. -/
inductive CmdOutcome (α : Type) : Type
  | success (v : α)
  | retryableErr (e : RegionError)
  | fatalErr (msg : String)
deriving DecidableEq

/-- Modelled from the spec: the snapshot wait phase of the transactional
command scheduler (tikv storage txn scheduler, absent from src; exercised by
the test test_scheduler_leader_change_twice).  A snapshot is valid only for
the routing epoch under which it was requested; resuming a paused snapshot
whose routing epoch has moved on must fail with a retryable staleness error
rather than proceed (spec sections 3 Snapshot and 4.4). -/
def resumePausedSnapshot (obtainedEpoch currentEpoch : Nat) : CmdOutcome Unit :=
  if currentEpoch = obtainedEpoch then .success () else .retryableErr .staleCommand

/-- Engine modelled as an association list from keys to values, newest
binding first. -/
abbrev Engine : Type := List (List Nat × List Nat)

/-- Point lookup in the engine. -/
def engineGet : Engine → List Nat → Option (List Nat)
  | [], _ => none
  | (k, v) :: rest, key => if k = key then some v else engineGet rest key

/-- Modelled from the spec: dispatch of one write command (Prewrite or raw
Put) through the routing layer (the raftkv sender, absent from src; exercised
by test_server_catching_api_error with the raftkv_early_error_report
failpoint).  When routing reports a region error the command terminates with
exactly that error, with no internal retry, and the engine is untouched;
otherwise the mutation of the command is applied (spec section 4.2 Retry
policy and section 7 Staleness errors). -/
def dispatchWrite (routing : Option RegionError) (eng : Engine)
    (applyMut : Engine → Engine) : CmdOutcome Unit × Engine :=
  match routing with
  | some e => (.retryableErr e, eng)
  | none => (.success (), applyMut eng)

/-- Raw Put: dispatch with the mutation that inserts the binding. -/
def rawPut (routing : Option RegionError) (eng : Engine) (k v : List Nat) :
    CmdOutcome Unit × Engine :=
  dispatchWrite routing eng (fun st => (k, v) :: st)

/-! ## MVCC commit (modelled from the spec) -/

/-- Kind of a write record (spec section 3): Put, Delete or Rollback marker. -/
inductive WriteKind : Type
  | put
  | del
  | rollback
deriving DecidableEq

/-- A committed version record in the MVCC write history. -/
structure WriteRecord where
  commitTs : Nat
  kind : WriteKind
  startTs : Nat
deriving DecidableEq

/-- An in-progress transaction intent on a key (spec section 3). -/
structure LockRecord where
  startTs : Nat
  primary : List Nat
  ttl : Nat
  shortValue : Option (List Nat)
deriving DecidableEq

/-- MVCC state of one key: the optional lock and the write history, newest
record first. -/
structure KeyMvcc where
  lock : Option LockRecord
  writes : List WriteRecord
deriving DecidableEq

/-- Outcome of the per key commit logic. -/
inductive TxnResult : Type
  | committed
  | conflict
deriving DecidableEq

/-- The write record left by the transaction with the given start timestamp,
found by scanning the write history. -/
def findTxnWrite (ws : List WriteRecord) (sts : Nat) : Option WriteRecord :=
  ws.find? (fun w => w.startTs == sts)

/-- Modelled from the spec: the lock-absent arm of Commit (spec section 4.3):
scan the write history for this transaction; a record that is not a rollback
marker means the key was already committed (idempotent success), a rollback
marker means the transaction was rolled back (conflict), and no record at all
is also a conflict (the lock is simply missing). -/
def commitMissingLock (st : KeyMvcc) (sts : Nat) : TxnResult × KeyMvcc :=
  match findTxnWrite st.writes sts with
  | some w => if w.kind = .rollback then (.conflict, st) else (.committed, st)
  | none => (.conflict, st)

/-- Modelled from the spec: per key Commit of the MVCC executor (spec section
4.3, absent from src).  A still-present lock matching the start timestamp is
replaced by a write record carrying the commit timestamp; when this
transaction holds no lock on the key, the write history decides between
idempotent success and conflict. -/
def commitKey (st : KeyMvcc) (sts cts : Nat) : TxnResult × KeyMvcc :=
  match st.lock with
  | some l =>
      if l.startTs = sts then
        (.committed, { lock := none, writes := ⟨cts, .put, sts⟩ :: st.writes })
      else
        commitMissingLock st sts
  | none => commitMissingLock st sts

/-! ## SST import path (modelled from the spec and its tests) -/

/-- One round of the crc32 bit loop over the reflected IEEE polynomial. -/
def crc32Round (c : Nat) : Nat :=
  if c % 2 = 1 then Nat.xor (c / 2) 0xEDB88320 else c / 2

/-- Fold one byte into the crc32 state: xor it in, then eight bit rounds. -/
def crc32Byte (c b : Nat) : Nat :=
  (List.range 8).foldl (fun acc _ => crc32Round acc) (Nat.xor c (b % 256))

/-- crc32 of a byte string (IEEE, as the calc_data_crc32 helper of the upload
tests): fold every byte starting from all ones, then complement. -/
def calcDataCrc32 (data : List Nat) : Nat :=
  Nat.xor (data.foldl crc32Byte 0xFFFFFFFF) 0xFFFFFFFF

/-- Meta of an SST file as carried by upload and ingest requests: uuid,
declared crc32 and length, and the region binding. -/
structure SstMeta where
  uuid : Nat
  crc32 : Nat
  length : Nat
  regionId : Nat
  regionEpoch : Nat
deriving DecidableEq

/-- An uploaded SST file: its meta, its raw bytes, and the key value pairs it
decodes to. -/
structure SstFile where
  meta : SstMeta
  data : List Nat
  kvs : List (List Nat × List Nat)
deriving DecidableEq

/-- Routing table: region id paired with its current epoch. -/
abbrev Regions : Type := List (Nat × Nat)

/-- Current epoch of a region, by id. -/
def regionsLookup : Regions → Nat → Option Nat
  | [], _ => none
  | (rid, e) :: rest, q => if rid = q then some e else regionsLookup rest q

/-- Modelled from the spec: SST upload validation (the sst importer crate is
absent from src; exercised by test_upload_sst).  The meta must carry the
crc32 and the length of the data (spec section 6, bulk import path), and a
file with the same uuid must not already exist; on success the file is kept
pending ingestion. -/
def uploadSst (files : List SstFile) (f : SstFile) : Option (List SstFile) :=
  if f.meta.crc32 = calcDataCrc32 f.data ∧ f.meta.length = f.data.length then
    if files.any (fun g => g.meta.uuid == f.meta.uuid) then none
    else some (f :: files)
  else none

/-- Errors of the ingest path. -/
inductive IngestError : Type
  | regionNotFound
  | regionMismatch
  | fileMissing
  | corrupted
deriving DecidableEq

/-- Result of an ingest request: the optional error, the engine after the
request, and the pending files after the request. -/
structure IngestResult where
  err : Option IngestError
  engine : Engine
  files : List SstFile
deriving DecidableEq

/-- The pending file with the given uuid. -/
def findFileByUuid (files : List SstFile) (u : Nat) : Option SstFile :=
  files.find? (fun f => f.meta.uuid == u)

/-- Remove the pending file with the given uuid. -/
def removeFileByUuid (files : List SstFile) (u : Nat) : List SstFile :=
  files.filter (fun f => !(f.meta.uuid == u))

/-- Modelled from the spec: SST ingest (the sst importer crate is absent from
src; exercised by test_ingest_sst and test_ingest_sst_region_not_found).  The
region addressed by the request context must exist, else region not found;
the meta must carry that region id and its current epoch, else the request is
rejected (spec section 6).  The uploaded file is then checked against the
meta, where a declared crc32 of 0 skips the checksum comparison (behavior
fixed by test_ingest_sst, which asserts ingest success with crc32 0 and the
true length); on success its key value pairs are written to the engine and
the file leaves the pending set. -/
def ingestSst (regions : Regions) (files : List SstFile) (eng : Engine)
    (ctxRegionId : Nat) (meta : SstMeta) : IngestResult :=
  match regionsLookup regions ctxRegionId with
  | none => ⟨some .regionNotFound, eng, files⟩
  | some curEpoch =>
      if meta.regionId = ctxRegionId ∧ meta.regionEpoch = curEpoch then
        match findFileByUuid files meta.uuid with
        | none => ⟨some .fileMissing, eng, files⟩
        | some f =>
            if (meta.crc32 = 0 ∨ meta.crc32 = calcDataCrc32 f.data)
                ∧ meta.length = f.data.length then
              ⟨none, f.kvs.reverse ++ eng, removeFileByUuid files meta.uuid⟩
            else ⟨some .corrupted, eng, files⟩
      else ⟨some .regionMismatch, eng, files⟩

/-- Modelled from the spec: the periodic import cleanup (driven by the
cleanup_import_sst_interval timer, independent of the scheduler; exercised by
test_cleanup_sst).  Every pending file whose region is gone or whose region
epoch no longer matches the current routing table is deleted. -/
def cleanupImportSst (regions : Regions) (files : List SstFile) : List SstFile :=
  files.filter (fun f =>
    match regionsLookup regions f.meta.regionId with
    | none => false
    | some e => f.meta.regionEpoch == e)

/-- Modelled from the spec: a split increments the epoch of the region
(glossary: the epoch is a monotonic version incremented on split) and creates
a sibling region carrying the incremented epoch. -/
def splitRegion (regions : Regions) (rid newRid : Nat) : Regions :=
  (regions.map (fun p => if p.1 = rid then (p.1, p.2 + 1) else p))
    ++ [(newRid, (regionsLookup regions rid).getD 0 + 1)]

/-- Modelled from the spec: a merge removes the source region and increments
the epoch of the target region (glossary: the epoch is incremented on
merge). -/
def mergeRegions (regions : Regions) (src tgt : Nat) : Regions :=
  (regions.filter (fun p => !(p.1 == src))).map
    (fun p => if p.1 = tgt then (p.1, p.2 + 1) else p)

/-! ## Helper lemmas -/

/-- A binding found in the left part of an appended engine is found in the
whole engine. -/
theorem engineGet_append_of_eq (l e2 : Engine) (k v : List Nat)
    (h : engineGet l k = some v) : engineGet (l ++ e2) k = some v := by
  induction l with
  | nil => simp [engineGet] at h
  | cons hd tl ih =>
    obtain ⟨a, b⟩ := hd
    simp only [engineGet, List.cons_append] at h ⊢
    by_cases hak : a = k
    · rw [if_pos hak] at h ⊢; exact h
    · rw [if_neg hak] at h ⊢; exact ih h

/-- In an engine whose keys are pairwise distinct, lookup finds every
binding. -/
theorem engineGet_of_mem_nodup (l : Engine) (k v : List Nat)
    (hm : (k, v) ∈ l) (hn : (l.map Prod.fst).Nodup) : engineGet l k = some v := by
  induction l with
  | nil => simp at hm
  | cons hd tl ih =>
    obtain ⟨a, b⟩ := hd
    simp only [List.map_cons, List.nodup_cons] at hn
    rcases List.mem_cons.mp hm with heq | hmem
    · cases heq
      simp [engineGet]
    · have hak : a ≠ k := by
        intro hc
        subst hc
        exact hn.1 (List.mem_map.mpr ⟨(a, v), hmem, rfl⟩)
      simp only [engineGet, if_neg hak]
      exact ih hmem hn.2

/-- Lookup in reversed pairs prepended to an engine finds every binding when
the keys of the pairs are pairwise distinct. -/
theorem engineGet_reverse_append (kvs : List (List Nat × List Nat)) (eng : Engine)
    (k v : List Nat) (hm : (k, v) ∈ kvs) (hn : (kvs.map Prod.fst).Nodup) :
    engineGet (kvs.reverse ++ eng) k = some v := by
  refine engineGet_append_of_eq _ _ _ _ (engineGet_of_mem_nodup _ _ _ ?_ ?_)
  · exact List.mem_reverse.mpr hm
  · rw [List.map_reverse]
    exact List.nodup_reverse.mpr hn

/-- Bumping the epoch of a region raises its lookup result by one. -/
theorem regionsLookup_bump (regions : Regions) (rid e : Nat)
    (h : regionsLookup regions rid = some e) :
    regionsLookup (regions.map (fun p => if p.1 = rid then (p.1, p.2 + 1) else p)) rid
      = some (e + 1) := by
  induction regions with
  | nil => simp [regionsLookup] at h
  | cons hd tl ih =>
    obtain ⟨a, b⟩ := hd
    simp only [List.map_cons]
    by_cases har : a = rid
    · subst har
      simp only [regionsLookup, if_pos rfl] at h
      injection h with hbe
      subst hbe
      have hhead : ((if ((a, b) : Nat × Nat).1 = a then ((a, b).1, (a, b).2 + 1) else (a, b))
          : Nat × Nat) = (a, b + 1) := by simp
      rw [hhead]
      simp [regionsLookup]
    · simp only [regionsLookup, if_neg har] at h
      have hhead : ((if ((a, b) : Nat × Nat).1 = rid then ((a, b).1, (a, b).2 + 1) else (a, b))
          : Nat × Nat) = (a, b) := by simp [har]
      rw [hhead]
      simp only [regionsLookup, if_neg har]
      exact ih h

/-- Lookup succeeding in the left part of an appended routing table succeeds
in the whole table. -/
theorem regionsLookup_append_of_eq (l l2 : Regions) (q e : Nat)
    (h : regionsLookup l q = some e) : regionsLookup (l ++ l2) q = some e := by
  induction l with
  | nil => simp [regionsLookup] at h
  | cons hd tl ih =>
    obtain ⟨a, b⟩ := hd
    simp only [regionsLookup, List.cons_append] at h ⊢
    by_cases haq : a = q
    · rw [if_pos haq] at h ⊢; exact h
    · rw [if_neg haq] at h ⊢; exact ih h

/-- After a merge, the source region is gone from the routing table. -/
theorem regionsLookup_merge_src (regions : Regions) (src tgt : Nat) :
    regionsLookup (mergeRegions regions src tgt) src = none := by
  induction regions with
  | nil => rfl
  | cons hd tl ih =>
    obtain ⟨a, b⟩ := hd
    by_cases has : a = src
    · have hstep : mergeRegions ((a, b) :: tl) src tgt = mergeRegions tl src tgt := by
        simp [mergeRegions, has]
      rw [hstep]
      exact ih
    · have hfil : List.filter (fun p => !(p.1 == src)) ((a, b) :: tl)
          = (a, b) :: List.filter (fun p => !(p.1 == src)) tl := by
        simp [List.filter_cons, has]
      have hstep : mergeRegions ((a, b) :: tl) src tgt
          = (if a = tgt then ((a : Nat), b + 1) else (a, b)) :: mergeRegions tl src tgt := by
        unfold mergeRegions
        rw [hfil, List.map_cons]
      rw [hstep]
      by_cases hat : a = tgt
      · rw [if_pos hat]
        simp only [regionsLookup, if_neg has]
        exact ih
      · rw [if_neg hat]
        simp only [regionsLookup, if_neg has]
        exact ih

/-- Number of responses the backup loop delivers never exceeds the number of
queued responses. -/
theorem backupDeliver_len {α : Type} (cap : Option Nat) (resps : List α) :
    (backupDeliver cap resps).1 ≤ resps.length := by
  induction resps generalizing cap with
  | nil => cases cap <;> simp [backupDeliver]
  | cons a rest ih =>
    cases cap with
    | none => simpa [backupDeliver] using ih none
    | some c =>
      cases c with
      | zero => simp [backupDeliver]
      | succ c2 => simpa [backupDeliver] using ih (some c2)

/-- The backup loop reports an error exactly when the client closed the sink
before all queued responses were delivered. -/
theorem backupDeliver_cancel {α : Type} (cap : Option Nat) (resps : List α) :
    (backupDeliver cap resps).2 = true ↔ ∃ c, cap = some c ∧ c < resps.length := by
  induction resps generalizing cap with
  | nil => cases cap <;> simp [backupDeliver]
  | cons a rest ih =>
    cases cap with
    | none => simp [backupDeliver, ih none]
    | some c =>
      cases c with
      | zero => simp [backupDeliver]
      | succ c2 =>
        rw [show (backupDeliver (some (c2 + 1)) (a :: rest)).2
            = (backupDeliver (some c2) rest).2 from rfl]
        rw [ih (some c2)]
        constructor
        · rintro ⟨c3, hc3, hlt⟩
          cases hc3
          exact ⟨c2 + 1, rfl, by simpa using Nat.succ_lt_succ hlt⟩
        · rintro ⟨c3, hc3, hlt⟩
          cases hc3
          exact ⟨c2, rfl, by simpa using Nat.lt_of_succ_lt_succ hlt⟩

/-- A pending file whose region epoch no longer matches the routing table is
removed by the cleanup pass, after which re-uploading it succeeds (given its
meta validates and no other pending file shares its uuid). -/
theorem cleanup_purges_and_reupload (regions2 : Regions) (files : List SstFile)
    (f : SstFile)
    (huniq : ∀ g ∈ files, g.meta.uuid = f.meta.uuid → g = f)
    (hcrc : f.meta.crc32 = calcDataCrc32 f.data)
    (hlen : f.meta.length = f.data.length)
    (hstale : ∀ e, regionsLookup regions2 f.meta.regionId = some e → f.meta.regionEpoch ≠ e) :
    f ∉ cleanupImportSst regions2 files ∧
    uploadSst (cleanupImportSst regions2 files) f
      = some (f :: cleanupImportSst regions2 files) := by
  have hnot : f ∉ cleanupImportSst regions2 files := by
    intro hin
    have hp := (List.mem_filter.mp hin).2
    cases hcase : regionsLookup regions2 f.meta.regionId with
    | none => simp [cleanupImportSst, hcase] at hp
    | some e =>
      rw [hcase] at hp
      simp at hp
      exact hstale e hcase hp
  refine ⟨hnot, ?_⟩
  have hanyc : (cleanupImportSst regions2 files).any
      (fun g => g.meta.uuid == f.meta.uuid) = false := by
    rw [List.any_eq_false]
    intro g hg hbe
    have hgf : g = f := huniq g (List.mem_filter.mp hg).1 (by simpa using hbe)
    exact hnot (hgf ▸ hg)
  simp [uploadSst, hcrc, hlen, hanyc]

/-! ## Claim theorems -/

/-- C9: converting an engine Error into the errorpb protocol error is total
and shape preserving: the message is always the display rendering of the
error, and key_not_in_region is filled, carrying exactly the key, region id,
start key and end key of the error, precisely for the NotInRange variant;
every other variant yields only the message. -/
theorem engine_error_to_errorpb_shape (e : EngineError) :
    (engineErrorToErrorPb e).message = engineErrorDisplay e ∧
    (engineErrorToErrorPb e).keyNotInRegion =
      (match e with
       | .notInRange key regionId startKey endKey => some ⟨key, regionId, startKey, endKey⟩
       | _ => none) := by
  cases e <;> simp [engineErrorToErrorPb]

/-- C6: in the backup delivery loop the cancel flag is stored exactly when a
send on the closed stream fails, i.e. exactly when the client closed the sink
before all queued responses were delivered; delivery is a total function of
the queue (no crash, no deadlock) and never delivers more responses than were
queued, the remainder being discarded. -/
theorem backup_cancel_iff_send_fails {α : Type} (cap : Option Nat) (resps : List α) :
    ((backupDeliver cap resps).2 = true ↔ ∃ c, cap = some c ∧ c < resps.length) ∧
    (backupDeliver cap resps).1 ≤ resps.length :=
  ⟨backupDeliver_cancel cap resps, backupDeliver_len cap resps⟩

/-- C8: the completion channel of the streaming result path is unbounded: as
long as the receiving side is alive, a send succeeds and just queues the
response, for every number of already queued responses, with no capacity
bound and no blocking. -/
theorem unbounded_channel_send_always_succeeds {α : Type} (ch : UnboundedChannel α) (x : α)
    (h : ch.receiverAlive = true) :
    unboundedSend ch x = some { buffer := ch.buffer ++ [x], receiverAlive := true } := by
  obtain ⟨buf, alive⟩ := ch
  subst h
  simp [unboundedSend]

/-- Witness for C8 at a channel holding four queued responses. -/
theorem unbounded_channel_send_witness :
    unboundedSend (UnboundedChannel.mk [0, 1, 2, 3] true) (9 : Nat)
      = some (UnboundedChannel.mk [0, 1, 2, 3, 9] true) :=
  unbounded_channel_send_always_succeeds (UnboundedChannel.mk [0, 1, 2, 3] true) 9 rfl

/-- C1: resuming a command whose snapshot request was paused while the
routing epoch changed (any positive number of changes, in particular twice)
fails with the retryable stale command staleness error as its delivered
outcome; it never succeeds, and resumption is a total function (no panic). -/
theorem paused_snapshot_epoch_change_is_stale (e0 n : Nat) (h : 0 < n) :
    resumePausedSnapshot e0 (e0 + n) = .retryableErr .staleCommand ∧
    ∀ v : Unit, resumePausedSnapshot e0 (e0 + n) ≠ .success v := by
  have hne : e0 + n ≠ e0 := by omega
  exact ⟨by simp [resumePausedSnapshot, hne], fun v => by simp [resumePausedSnapshot, hne]⟩

/-- Witness for C1: epoch obtained at 7, changed twice before resumption. -/
theorem paused_snapshot_epoch_change_witness :
    0 < 2 ∧ resumePausedSnapshot 7 (7 + 2) = CmdOutcome.retryableErr RegionError.staleCommand :=
  ⟨by decide, (paused_snapshot_epoch_change_is_stale 7 2 (by decide)).1⟩

/-- C2: when the routing layer reports a region error for a write command
(Prewrite or raw Put), the command terminates with exactly that error (no
internal retry, nothing masked), the engine is unmodified and a previously
absent key stays absent; once routing recovers, the re-submitted raw Put
succeeds and the value becomes readable. -/
theorem region_error_surfaced_unchanged (eng : Engine) (k v : List Nat)
    (applyMut : Engine → Engine) (habs : engineGet eng k = none) :
    (∀ err, dispatchWrite (some err) eng applyMut = (.retryableErr err, eng)) ∧
    engineGet (rawPut (some .regionNotFound) eng k v).2 k = none ∧
    (rawPut none eng k v).1 = .success () ∧
    engineGet (rawPut none eng k v).2 k = some v := by
  refine ⟨fun err => rfl, ?_, rfl, ?_⟩
  · simpa [rawPut, dispatchWrite] using habs
  · simp [rawPut, dispatchWrite, engineGet]

/-- Witness for C2 on the empty engine with key k3 and value v3. -/
theorem region_error_surfaced_witness :
    engineGet (rawPut (some RegionError.regionNotFound) [] [107, 51] [118, 51]).2 [107, 51]
      = none ∧
    engineGet (rawPut none [] [107, 51] [118, 51]).2 [107, 51] = some [118, 51] :=
  ⟨(region_error_surfaced_unchanged [] [107, 51] [118, 51] id rfl).2.1,
   (region_error_surfaced_unchanged [] [107, 51] [118, 51] id rfl).2.2.2⟩

/-- C7: Commit is idempotent for an already committed transaction: with the
lock absent, if the write history holds a record of this transaction then the
commit succeeds exactly when that record is not a rollback marker (already
committed: success; rolled back: conflict), and the key state is unchanged. -/
theorem commit_idempotent_already_committed (st : KeyMvcc) (sts cts : Nat) (w : WriteRecord)
    (hlock : st.lock = none) (hfind : findTxnWrite st.writes sts = some w) :
    ((commitKey st sts cts).1 = .committed ↔ w.kind ≠ .rollback) ∧
    (commitKey st sts cts).2 = st := by
  by_cases hk : w.kind = .rollback <;>
    simp [commitKey, commitMissingLock, hlock, hfind, hk]

/-- Witness for C7: a transaction prewritten at 10 and committed at 11, with
the commit re-submitted at the same timestamps. -/
theorem commit_idempotent_witness :
    (commitKey ⟨none, [⟨11, WriteKind.put, 10⟩]⟩ 10 11).1 = TxnResult.committed :=
  ((commit_idempotent_already_committed ⟨none, [⟨11, WriteKind.put, 10⟩]⟩ 10 11
      ⟨11, WriteKind.put, 10⟩ rfl rfl).1).mpr (by decide)

/-- C4: SST upload validates the file against its declared checksum and
length: a declared crc32 that differs from the actual crc32 of the data
fails, a declared length that differs from the actual length fails, and with
both matching (and the uuid not already uploaded) the upload succeeds. -/
theorem upload_validates_checksum_and_length (files : List SstFile) (f : SstFile) :
    (f.meta.crc32 ≠ calcDataCrc32 f.data → uploadSst files f = none) ∧
    (f.meta.length ≠ f.data.length → uploadSst files f = none) ∧
    (f.meta.crc32 = calcDataCrc32 f.data → f.meta.length = f.data.length →
      (∀ g ∈ files, g.meta.uuid ≠ f.meta.uuid) → uploadSst files f = some (f :: files)) := by
  refine ⟨fun h => by simp [uploadSst, h], fun h => by simp [uploadSst, h], ?_⟩
  intro h1 h2 h3
  have hany : files.any (fun g => g.meta.uuid == f.meta.uuid) = false := by
    rw [List.any_eq_false]
    intro g hg hbe
    exact h3 g hg (by simpa using hbe)
  simp [uploadSst, h1, h2, hany]

/-- Witness for C4: on data 1 2 3, a declared crc32 of 0 fails and the
matching declaration succeeds. -/
theorem upload_validates_witness :
    uploadSst [] ⟨⟨7, 0, 3, 1, 5⟩, [1, 2, 3], []⟩ = none ∧
    uploadSst [] ⟨⟨7, calcDataCrc32 [1, 2, 3], 3, 1, 5⟩, [1, 2, 3], []⟩
      = some [⟨⟨7, calcDataCrc32 [1, 2, 3], 3, 1, 5⟩, [1, 2, 3], []⟩] :=
  ⟨(upload_validates_checksum_and_length [] ⟨⟨7, 0, 3, 1, 5⟩, [1, 2, 3], []⟩).1 (by decide),
   (upload_validates_checksum_and_length []
       ⟨⟨7, calcDataCrc32 [1, 2, 3], 3, 1, 5⟩, [1, 2, 3], []⟩).2.2 rfl rfl (by simp)⟩

/-- C3: an ingest request is rejected whenever the meta does not carry the
matching region id and current region epoch (in particular a meta lacking
them), ingesting into a region that does not exist yields region not found,
and with the matching region id and epoch the uploaded file ingests
successfully and all its key value pairs become readable. -/
theorem ingest_requires_matching_region (regions : Regions) (files : List SstFile)
    (eng : Engine) (rid curEpoch badRid : Nat) (f : SstFile)
    (hreg : regionsLookup regions rid = some curEpoch)
    (hbad : regionsLookup regions badRid = none)
    (hfind : findFileByUuid files f.meta.uuid = some f)
    (hrid : f.meta.regionId = rid)
    (hepoch : f.meta.regionEpoch = curEpoch)
    (hcrc : f.meta.crc32 = calcDataCrc32 f.data)
    (hlen : f.meta.length = f.data.length)
    (hnodup : (f.kvs.map Prod.fst).Nodup) :
    (∀ meta : SstMeta, meta.regionId ≠ rid ∨ meta.regionEpoch ≠ curEpoch →
      (ingestSst regions files eng rid meta).err = some .regionMismatch) ∧
    (∀ meta : SstMeta, (ingestSst regions files eng badRid meta).err = some .regionNotFound) ∧
    (ingestSst regions files eng rid f.meta).err = none ∧
    (∀ kv ∈ f.kvs, engineGet (ingestSst regions files eng rid f.meta).engine kv.1 = some kv.2) := by
  refine ⟨?_, ?_, ?_, ?_⟩
  · intro meta hm
    have hcond : ¬(meta.regionId = rid ∧ meta.regionEpoch = curEpoch) := by tauto
    simp [ingestSst, hreg, hcond]
  · intro meta
    simp [ingestSst, hbad]
  · simp [ingestSst, hreg, hrid, hepoch, hfind, hcrc, hlen]
  · intro kv hkv
    have heng : (ingestSst regions files eng rid f.meta).engine = f.kvs.reverse ++ eng := by
      simp [ingestSst, hreg, hrid, hepoch, hfind, hcrc, hlen]
    rw [heng]
    exact engineGet_reverse_append f.kvs eng kv.1 kv.2 (by simpa using hkv) hnodup

/-- Witness for C3: one region (id 1, epoch 5), one uploaded file with two
key value pairs; ingest with the matching meta succeeds and both pairs are
readable, and ingest addressed at the absent region 2 is region not found. -/
theorem ingest_requires_matching_region_witness :
    (ingestSst [(1, 5)]
        [⟨⟨7, calcDataCrc32 [9, 9], 2, 1, 5⟩, [9, 9], [([0], [0]), ([1], [1])]⟩]
        [] 1 ⟨7, calcDataCrc32 [9, 9], 2, 1, 5⟩).err = none ∧
    (ingestSst [(1, 5)]
        [⟨⟨7, calcDataCrc32 [9, 9], 2, 1, 5⟩, [9, 9], [([0], [0]), ([1], [1])]⟩]
        [] 2 ⟨7, calcDataCrc32 [9, 9], 2, 1, 5⟩).err = some IngestError.regionNotFound :=
  ⟨(ingest_requires_matching_region [(1, 5)]
      [⟨⟨7, calcDataCrc32 [9, 9], 2, 1, 5⟩, [9, 9], [([0], [0]), ([1], [1])]⟩] [] 1 5 2
      ⟨⟨7, calcDataCrc32 [9, 9], 2, 1, 5⟩, [9, 9], [([0], [0]), ([1], [1])]⟩
      rfl rfl rfl rfl rfl rfl rfl (by decide)).2.2.1,
   (ingest_requires_matching_region [(1, 5)]
      [⟨⟨7, calcDataCrc32 [9, 9], 2, 1, 5⟩, [9, 9], [([0], [0]), ([1], [1])]⟩] [] 1 5 2
      ⟨⟨7, calcDataCrc32 [9, 9], 2, 1, 5⟩, [9, 9], [([0], [0]), ([1], [1])]⟩
      rfl rfl rfl rfl rfl rfl rfl (by decide)).2.1 ⟨7, calcDataCrc32 [9, 9], 2, 1, 5⟩⟩

/-- C10: a declared crc32 of 0 disables the checksum comparison at ingest
time: with the region binding and the length correct but the declared crc32
set to 0, ingest succeeds although the actual crc32 of the data is nonzero,
so the checksum validation of the import path is not enforced at ingest for
crc32 equal 0. -/
theorem ingest_crc32_zero_skips_checksum (regions : Regions) (files : List SstFile)
    (eng : Engine) (rid curEpoch : Nat) (f : SstFile)
    (hreg : regionsLookup regions rid = some curEpoch)
    (hfind : findFileByUuid files f.meta.uuid = some f)
    (hrid : f.meta.regionId = rid)
    (hepoch : f.meta.regionEpoch = curEpoch)
    (hlen : f.meta.length = f.data.length)
    (hcrc : calcDataCrc32 f.data ≠ 0) :
    (ingestSst regions files eng rid { f.meta with crc32 := 0 }).err = none := by
  simp [ingestSst, hreg, hrid, hepoch, hfind, hlen]

/-- Witness for C10: the declared crc32 is 0, the actual crc32 of the data is
nonzero, and ingest still succeeds. -/
theorem ingest_crc32_zero_witness :
    calcDataCrc32 [9, 9] ≠ 0 ∧
    (ingestSst [(1, 5)]
        [⟨⟨7, calcDataCrc32 [9, 9], 2, 1, 5⟩, [9, 9], [([0], [0]), ([1], [1])]⟩]
        [] 1 ⟨7, 0, 2, 1, 5⟩).err = none :=
  ⟨by decide,
   ingest_crc32_zero_skips_checksum [(1, 5)]
     [⟨⟨7, calcDataCrc32 [9, 9], 2, 1, 5⟩, [9, 9], [([0], [0]), ([1], [1])]⟩] [] 1 5
     ⟨⟨7, calcDataCrc32 [9, 9], 2, 1, 5⟩, [9, 9], [([0], [0]), ([1], [1])]⟩
     rfl rfl rfl rfl rfl (by decide)⟩

/-- C5: an uploaded, not yet ingested file bound to a region is purged by
the cleanup pass of the importer, which runs on its own timer independent of
the scheduler, once that region splits or merges: while the file exists the same
upload fails; after a split or after a merge of its region the cleanup pass
deletes the file, and the same upload then succeeds. -/
theorem sst_purged_on_split_or_merge (regions : Regions) (files : List SstFile)
    (f : SstFile) (newRid tgt : Nat)
    (hreg : regionsLookup regions f.meta.regionId = some f.meta.regionEpoch)
    (hmem : f ∈ files)
    (huniq : ∀ g ∈ files, g.meta.uuid = f.meta.uuid → g = f)
    (hcrc : f.meta.crc32 = calcDataCrc32 f.data)
    (hlen : f.meta.length = f.data.length) :
    uploadSst files f = none ∧
    (f ∉ cleanupImportSst (splitRegion regions f.meta.regionId newRid) files ∧
      uploadSst (cleanupImportSst (splitRegion regions f.meta.regionId newRid) files) f
        = some (f :: cleanupImportSst (splitRegion regions f.meta.regionId newRid) files)) ∧
    (f ∉ cleanupImportSst (mergeRegions regions f.meta.regionId tgt) files ∧
      uploadSst (cleanupImportSst (mergeRegions regions f.meta.regionId tgt) files) f
        = some (f :: cleanupImportSst (mergeRegions regions f.meta.regionId tgt) files)) := by
  refine ⟨?_, ?_, ?_⟩
  · have hany : files.any (fun g => g.meta.uuid == f.meta.uuid) = true :=
      List.any_eq_true.mpr ⟨f, hmem, by simp⟩
    simp [uploadSst, hcrc, hlen, hany]
  · refine cleanup_purges_and_reupload _ files f huniq hcrc hlen ?_
    intro e hlk
    have hbumped : regionsLookup (splitRegion regions f.meta.regionId newRid) f.meta.regionId
        = some (f.meta.regionEpoch + 1) := by
      unfold splitRegion
      exact regionsLookup_append_of_eq _ _ _ _ (regionsLookup_bump _ _ _ hreg)
    rw [hbumped] at hlk
    injection hlk with hlk
    omega
  · refine cleanup_purges_and_reupload _ files f huniq hcrc hlen ?_
    intro e hlk
    rw [regionsLookup_merge_src regions f.meta.regionId tgt] at hlk
    exact Option.noConfusion hlk

/-- Witness for C5: one file bound to region 1 at epoch 5; its upload is
blocked while it is pending, and after a split of region 1 the cleanup pass
deletes it so the same upload succeeds. -/
theorem sst_purged_witness :
    uploadSst [⟨⟨7, calcDataCrc32 [9, 9], 2, 1, 5⟩, [9, 9], [([0], [0]), ([1], [1])]⟩]
      ⟨⟨7, calcDataCrc32 [9, 9], 2, 1, 5⟩, [9, 9], [([0], [0]), ([1], [1])]⟩ = none ∧
    uploadSst
      (cleanupImportSst (splitRegion [(1, 5)] 1 2)
        [⟨⟨7, calcDataCrc32 [9, 9], 2, 1, 5⟩, [9, 9], [([0], [0]), ([1], [1])]⟩])
      ⟨⟨7, calcDataCrc32 [9, 9], 2, 1, 5⟩, [9, 9], [([0], [0]), ([1], [1])]⟩
      = some (⟨⟨7, calcDataCrc32 [9, 9], 2, 1, 5⟩, [9, 9], [([0], [0]), ([1], [1])]⟩
          :: cleanupImportSst (splitRegion [(1, 5)] 1 2)
            [⟨⟨7, calcDataCrc32 [9, 9], 2, 1, 5⟩, [9, 9], [([0], [0]), ([1], [1])]⟩]) :=
  ⟨(sst_purged_on_split_or_merge [(1, 5)]
      [⟨⟨7, calcDataCrc32 [9, 9], 2, 1, 5⟩, [9, 9], [([0], [0]), ([1], [1])]⟩]
      ⟨⟨7, calcDataCrc32 [9, 9], 2, 1, 5⟩, [9, 9], [([0], [0]), ([1], [1])]⟩ 2 3
      rfl (by simp) (by simp) rfl rfl).1,
   (sst_purged_on_split_or_merge [(1, 5)]
      [⟨⟨7, calcDataCrc32 [9, 9], 2, 1, 5⟩, [9, 9], [([0], [0]), ([1], [1])]⟩]
      ⟨⟨7, calcDataCrc32 [9, 9], 2, 1, 5⟩, [9, 9], [([0], [0]), ([1], [1])]⟩ 2 3
      rfl (by simp) (by simp) rfl rfl).2.1.2⟩
